import Mathlib

/-!
Shallow embedding of the build-invocation layer and artifact instrumentation
pipeline of the cargo-pgo repository (src/lib.rs, src/build.rs,
src/bolt/instrument.rs, src/bolt/mod.rs), with theorems settling the
specification claims about argument filtering, target resolution, build
error reporting, environment composition, profile-directory lifecycle and
BOLT instrumentation paths.
-/

namespace CargoPgo

/-- One warning event emitted through the logging facade by
`parse_cargo_args` (src/build.rs, the two log warn calls). -/
inductive LogEvent where
  | warnRelease
  | warnMessageFormat
deriving DecidableEq, Repr

/-- Mirror of `struct CargoArgs` (src/build.rs lines 10-14). -/
structure CargoArgs where
  filtered : List String
  contains_target : Bool
deriving DecidableEq, Repr

/-- Mirror of `parse_cargo_args` (src/build.rs lines 91-114), extended with
the list of warnings the source emits through the logger: a left-to-right
pass that drops a release flag with a warning, drops a message-format flag
together with the single following token with a warning, keeps a target
flag while recording `contains_target`, and keeps everything else. -/
def parse_cargo_args_run : List String → CargoArgs × List LogEvent
  | [] => (⟨[], false⟩, [])
  | arg :: rest =>
    if arg = "--release" then
      ((parse_cargo_args_run rest).1, .warnRelease :: (parse_cargo_args_run rest).2)
    else if arg = "--message-format" then
      match rest with
      | [] => (⟨[], false⟩, [.warnMessageFormat])
      | _ :: rest2 =>
        ((parse_cargo_args_run rest2).1, .warnMessageFormat :: (parse_cargo_args_run rest2).2)
    else if arg = "--target" then
      (⟨arg :: (parse_cargo_args_run rest).1.filtered, true⟩, (parse_cargo_args_run rest).2)
    else
      (⟨arg :: (parse_cargo_args_run rest).1.filtered, (parse_cargo_args_run rest).1.contains_target⟩,
        (parse_cargo_args_run rest).2)

/-- The `CargoArgs` value returned by `parse_cargo_args`, projecting away
the warning log. -/
def parse_cargo_args (cargo_args : List String) : CargoArgs :=
  (parse_cargo_args_run cargo_args).1

/-- Modelled from the spec: the `CargoCommand` enumeration lives in
src/pgo/mod.rs, which is not part of the provided sources; the spec
describes it as the subcommand kind of the wrapped build tool, rendered to
the subcommand name by `to_str`. Only the build variant is exercised by
the instrumentation pipeline. -/
inductive CargoCommand where
  | build
deriving DecidableEq, Repr

/-- Modelled from the spec: the subcommand name passed as the first
argument of the wrapped build tool invocation. -/
def CargoCommand.to_str : CargoCommand → String
  | .build => "build"

/-- The child-process invocation assembled by `cargo_command`
(src/build.rs lines 59-89): program, full argument list, and the explicit
environment-overrides mapping handed to the launch call. -/
structure ChildInvocation where
  program : String
  args : List String
  env : List (String × String)
deriving DecidableEq, Repr

/-- The four arguments `cargo_command` always injects first
(src/build.rs lines 64-69). -/
def cargo_base_args (cargo_cmd : CargoCommand) : List String :=
  [cargo_cmd.to_str, "--release", "--message-format", "json-diagnostic-rendered-ansi"]

/-- Mirror of `cargo_command` (src/build.rs lines 59-89) up to the point
where the child process is spawned: filters the user arguments, injects the
fixed flags, injects a target flag obtained from the target resolver
exactly when the user supplied none (the resolver result is passed in as
`default_target`, since querying rustc is an external effect), then
appends the filtered arguments and attaches the environment overrides. -/
def cargo_command (cargo_cmd : CargoCommand) (cargo_args : List String)
    (env : List (String × String)) (default_target : Except String String) :
    Except String ChildInvocation :=
  if (parse_cargo_args cargo_args).contains_target then
    .ok ⟨"cargo", cargo_base_args cargo_cmd ++ (parse_cargo_args cargo_args).filtered, env⟩
  else
    match default_target with
    | .error e => .error ("Unable to find default target triple for your platform: " ++ e)
    | .ok t =>
      .ok ⟨"cargo", cargo_base_args cargo_cmd ++ ["--target", t]
            ++ (parse_cargo_args cargo_args).filtered, env⟩

/-- Mirror of the environment-composition prefix of
`cargo_command_with_flags` (src/build.rs lines 17-27): read the current
RUSTFLAGS value from the inherited process environment (empty when unset),
append the extra flags after a space, and hand the singleton overrides
mapping to `cargo_command`. The process environment is an explicit
read-only input because the source only ever reads it. -/
def cargo_command_with_flags_invocation (global_env : String → Option String)
    (command : CargoCommand) (flags : String) (cargo_args : List String)
    (default_target : Except String String) : Except String ChildInvocation :=
  cargo_command command cargo_args
    [("RUSTFLAGS", (global_env "RUSTFLAGS").getD "" ++ " " ++ flags)] default_target

/-- Mirror of `cargo_metadata::Message` restricted to the variants the
source inspects (src/build.rs, src/bolt/instrument.rs): text lines,
compiler diagnostics with an optional pre-rendered form, compiled-artifact
records with an optional executable path, build-finished records, and a
catch-all for every other record kind. -/
inductive Message where
  | textLine (line : String)
  | compilerMessage (rendered : Option String) (message : String)
  | compilerArtifact (target_name : String) (executable : Option String) (kinds : List String)
  | buildFinished (success : Bool)
  | other
deriving DecidableEq, Repr

/-- Mirror of `write_metadata_message` (src/build.rs lines 120-137) with
the output stream made explicit as an accumulating string: text lines are
written verbatim, compiler diagnostics prefer the pre-rendered form and
fall back to the plain message, every other variant writes nothing. -/
def write_metadata_message (stream : String) : Message → String
  | .textLine line => stream ++ line
  | .compilerMessage rendered message => stream ++ rendered.getD message
  | _ => stream

/-- Mirror of `cargo_json_output_to_string` (src/build.rs lines 41-51)
over an already-decoded message stream: fold `write_metadata_message`
over the messages into one rendered transcript. -/
def cargo_json_output_to_string (stdout_msgs : List Message) : String :=
  stdout_msgs.foldl write_metadata_message ""

/-- The captured result of the wrapped cargo child process as
`cargo_command_with_flags` inspects it: whether the exit status was a
success, its display form, the decoded structured stdout, and the raw
stderr text. -/
structure Output where
  success : Bool
  status_display : String
  stdout_msgs : List Message
  stderr : String
deriving DecidableEq, Repr

/-- Mirror of the status check in `cargo_command_with_flags`
(src/build.rs lines 28-39): on a non-success exit status, fail with an
error embedding the status display, the raw stderr (the terminal coloring
applied by the source is display-only and elided), and the rendered
replay of the captured structured stdout; on success return the captured
output unchanged. -/
def cargo_command_with_flags_check (output : Output) : Except String Output :=
  if output.success = false then
    .error ("Cargo error (" ++ output.status_display ++ ")\n" ++ output.stderr ++ "\n"
      ++ cargo_json_output_to_string output.stdout_msgs)
  else
    .ok output

/-- Split a character list at every occurrence of the separator character,
keeping empty segments; structural counterpart of splitting a Rust string
slice on one character. -/
def split_chars (sep : Char) : List Char → List (List Char)
  | [] => [[]]
  | c :: cs =>
    match split_chars sep cs with
    | [] => [[]]
    | r :: rs => if c = sep then [] :: r :: rs else (c :: r) :: rs

/-- Split a string on a separator character. -/
def str_split (s : String) (sep : Char) : List String :=
  (split_chars sep s.toList).map String.mk

/-- Drop the first `n` characters of a string; for the ASCII marker uses in
this code base this agrees with Rust byte slicing. -/
def str_drop (s : String) (n : Nat) : String :=
  String.mk (s.toList.drop n)

/-- Whether the first list is an initial segment of the second. -/
def chars_begin_with : List Char → List Char → Bool
  | [], _ => true
  | _ :: _, [] => false
  | a :: pre, b :: s => a == b && chars_begin_with pre s

/-- Rust `str::starts_with` on string slices. -/
def str_begins_with (s marker : String) : Bool :=
  chars_begin_with marker.toList s.toList

/-- The final character of a string, when the string is nonempty. -/
def str_last_char (s : String) : Option Char :=
  s.toList.getLast?

/-- The string with its final character removed. -/
def str_drop_last (s : String) : String :=
  String.mk s.toList.dropLast

/-- Join a list of strings with a separator between consecutive entries. -/
def str_intercalate (sep : String) : List String → String
  | [] => ""
  | [s] => s
  | s :: rest => s ++ sep ++ str_intercalate sep rest

/-- Rust `str::lines`: split on newline characters, dropping the trailing
empty segment produced by a terminating newline and stripping one carriage
return at the end of each line. -/
def rust_lines (s : String) : List String :=
  let parts := str_split s '\n'
  let parts2 := if parts.getLast? = some "" then parts.dropLast else parts
  parts2.map (fun l => if str_last_char l = some '\r' then str_drop_last l else l)

/-- Mirror of `get_default_target` (src/lib.rs lines 28-42): the result of
running the rustc query through `run_command` is the explicit input; scan
its stdout line by line for the first line beginning with the fixed
marker and return the remainder of that line (the marker is six
characters), or fail when no such line exists or the query itself failed. -/
def get_default_target (query : Except String String) : Except String String :=
  match query with
  | .error e => .error e
  | .ok output =>
    match (rust_lines output).find? (fun l => str_begins_with l "host: ") with
    | some l => .ok (str_drop l 6)
    | none => .error "Failed to parse target from rustc output."

/-- The observable result of launching one external child process: whether
the launch itself succeeded, the exit status code, and the captured stdout
bytes decoded as UTF-8 when possible. -/
structure ProcessResult where
  spawned : Bool
  exit_code : Int
  stdout_utf8 : Option String
deriving DecidableEq, Repr

/-- Mirror of `run_command` (src/lib.rs lines 18-25): pipe the stdout of
the child, fail when the process cannot be launched or its stdout is not
valid UTF-8, and otherwise return the stdout text. The exit status of the
child is not consulted anywhere in this function. -/
def run_command (r : ProcessResult) : Except String String :=
  if r.spawned = false then
    .error "failed to execute process"
  else
    match r.stdout_utf8 with
    | none => .error "invalid utf-8 sequence"
    | some s => .ok s

/-- Path components in the sense of Rust `std::path::Components` over the
byte form of a path: the segments between slashes, with empty and
current-directory segments skipped. The model covers Unix-style absolute
and simple relative paths, which is the shape of every compiled-artifact
executable path handled by the pipeline. -/
def path_components (p : String) : List String :=
  (str_split p '/').filter (fun c => c ≠ "" && c ≠ ".")

/-- Rust `Path::file_name`: the final normal component, none when the path
has no components or ends in a parent-directory component. -/
def path_file_name (p : String) : Option String :=
  match (path_components p).getLast? with
  | some c => if c = ".." then none else some c
  | none => none

/-- Rust file-stem splitting of one file name: the portion before the last
dot, except that a name without a dot, or with its only dot in leading
position, is returned whole. -/
def file_stem_of_name (n : String) : String :=
  let parts := str_split n '.'
  if parts.length ≤ 1 then n
  else if str_intercalate "." parts.dropLast = "" then n
  else str_intercalate "." parts.dropLast

/-- Rust `Path::file_stem`: the stem of the file name, when there is one. -/
def path_file_stem (p : String) : Option String :=
  (path_file_name p).map file_stem_of_name

/-- Rust `Path::is_absolute` on Unix: the path begins with a slash. -/
def path_is_absolute (p : String) : Bool :=
  str_begins_with p "/"

/-- Rust `Path::parent`: the path with the final component removed, none
when there is no component to remove. -/
def path_parent (p : String) : Option String :=
  match path_components p with
  | [] => none
  | comps =>
    if path_is_absolute p then some ("/" ++ str_intercalate "/" comps.dropLast)
    else if comps.dropLast.isEmpty then some ""
    else some (str_intercalate "/" comps.dropLast)

/-- Rust `Path::join` for the cases arising here: an absolute child
replaces the base, otherwise the child is appended after a separating
slash. -/
def path_join (base child : String) : String :=
  if str_begins_with child "/" then child
  else if base = "" then child
  else if str_last_char base = some '/' then base ++ child
  else base ++ "/" ++ child

/-- The outcome of running a pipeline stage whose source can return a
value, propagate an error value, or abort the process through one of the
`expect` calls. -/
inductive RunOutcome (α : Type) where
  | ok (value : α)
  | error (message : String)
  | panicked (message : String)
deriving DecidableEq, Repr

/-- The profile-file path prefix computed by `instrument_binary`
(src/bolt/instrument.rs lines 88-95): profile directory, slash, artifact
base name, slash, the literal profile file stem. -/
def instrument_profile_path (profile_dir basename : String) : String :=
  profile_dir ++ "/" ++ basename ++ "/profile"

/-- The argument list `instrument_binary` hands to the external BOLT
binary (src/bolt/instrument.rs lines 97-109): instrument mode, input path,
pid-appending profile option, profile path prefix, debug-section
preservation, and the output path. -/
def bolt_instrument_args (path profile_path target_path : String) : List String :=
  ["-instrument", path, "--instrumentation-file-append-pid", "--instrumentation-file",
    profile_path, "-update-debug-sections", "-o", target_path]

/-- Mirror of `instrument_binary` (src/bolt/instrument.rs lines 76-112):
extract the artifact base name (aborting via `expect` when there is none),
create the per-artifact profile subdirectory (its filesystem result is the
explicit `create_dir_result` input), compute the sibling instrumented
output path (aborting via `expect` when the artifact has no parent),
compute the profile path prefix, invoke the external BOLT binary through
`run_command` (the behaviour of that child process is the explicit `bolt`
input), and return the instrumented output path. -/
def instrument_binary (create_dir_result : Except String Unit)
    (bolt : List String → ProcessResult) (path profile_dir : String) :
    RunOutcome String :=
  match path_file_stem path with
  | none => .panicked "Cannot extract executable basename"
  | some basename =>
    match create_dir_result with
    | .error e => .error e
    | .ok _ =>
      match path_parent path with
      | none => .panicked "Cannot get parent of compiled binary"
      | some par =>
        let target_path := path_join par (basename ++ "-bolt-instrumented")
        let profile_path := instrument_profile_path profile_dir basename
        match run_command (bolt (bolt_instrument_args path profile_path target_path)) with
        | .error e => .error e
        | .ok _ => .ok target_path

/-- Mirror of the message loop of `bolt_instrument`
(src/bolt/instrument.rs lines 36-68): walk the decoded build messages in
order, instrument every compiled-artifact record carrying an executable
path and collect the instrumented paths, propagating the first
instrumentation failure and skipping every other message kind. -/
def instrument_artifacts (create_dir_result : Except String Unit)
    (bolt : List String → ProcessResult) (profile_dir : String) :
    List Message → RunOutcome (List String)
  | [] => .ok []
  | .compilerArtifact _ (some exe) _ :: rest =>
    match instrument_binary create_dir_result bolt exe profile_dir with
    | .panicked m => .panicked m
    | .error e => .error e
    | .ok p =>
      match instrument_artifacts create_dir_result bolt profile_dir rest with
      | .ok ps => .ok (p :: ps)
      | .error e => .error e
      | .panicked m => .panicked m
  | _ :: rest => instrument_artifacts create_dir_result bolt profile_dir rest

/-- The filesystem as the footprint the profile-directory code touches: the
set of existing paths, directories and files alike. -/
def is_under (root q : String) : Bool :=
  q == root || str_begins_with q (root ++ "/")

/-- `Path::exists` over the path-set filesystem model. -/
def fs_exists (fs : List String) (p : String) : Bool :=
  fs.contains p

/-- Rust `std::fs::remove_dir_all`: remove the path and everything under
it; a missing path is an error (NotFound). -/
def remove_dir_all (fs : List String) (p : String) : Except String (List String) :=
  if fs.contains p then .ok (fs.filter (fun q => !(is_under p q)))
  else .error "No such file or directory"

/-- Rust `std::fs::create_dir_all` restricted to the recorded path: ensure
the path exists, succeeding when it already does. -/
def create_dir_all_fs (fs : List String) (p : String) : List String :=
  if fs.contains p then fs else p :: fs

/-- Mirror of `clear_directory` (src/lib.rs lines 45-48): remove the
directory tree, then recreate the directory; the remove step fails when
the path does not exist. -/
def clear_directory (fs : List String) (p : String) : Except String (List String) :=
  match remove_dir_all fs p with
  | .error e => .error e
  | .ok fs1 => .ok (create_dir_all_fs fs1 p)

/-- Mirror of the profile-directory preparation step of `bolt_instrument`
(src/bolt/instrument.rs lines 28-31): clear the directory when it already
exists, and do nothing otherwise. -/
def bolt_prepare (fs : List String) (p : String) : Except String (List String) :=
  if fs_exists fs p then clear_directory fs p else .ok fs

/-- The path exists and nothing exists strictly under it. -/
def dir_is_empty (fs : List String) (p : String) : Bool :=
  fs.contains p && fs.all (fun q => !(is_under p q) || q == p)

theorem run_nil : parse_cargo_args_run [] = (⟨[], false⟩, []) := rfl

theorem run_release (rest : List String) :
    parse_cargo_args_run ("--release" :: rest)
      = ((parse_cargo_args_run rest).1, .warnRelease :: (parse_cargo_args_run rest).2) := by
  rw [parse_cargo_args_run.eq_def]
  simp

theorem run_target (rest : List String) :
    parse_cargo_args_run ("--target" :: rest)
      = (⟨"--target" :: (parse_cargo_args_run rest).1.filtered, true⟩,
          (parse_cargo_args_run rest).2) := by
  rw [parse_cargo_args_run.eq_def]
  simp

theorem run_mf_cons (v : String) (rest : List String) :
    parse_cargo_args_run ("--message-format" :: v :: rest)
      = ((parse_cargo_args_run rest).1, .warnMessageFormat :: (parse_cargo_args_run rest).2) := by
  rw [parse_cargo_args_run.eq_def]
  simp

theorem run_mf_nil :
    parse_cargo_args_run ["--message-format"] = (⟨[], false⟩, [.warnMessageFormat]) := by
  rw [parse_cargo_args_run.eq_def]
  simp

theorem run_other (a : String) (rest : List String) (h1 : a ≠ "--release")
    (h2 : a ≠ "--message-format") (h3 : a ≠ "--target") :
    parse_cargo_args_run (a :: rest)
      = (⟨a :: (parse_cargo_args_run rest).1.filtered,
          (parse_cargo_args_run rest).1.contains_target⟩, (parse_cargo_args_run rest).2) := by
  rw [parse_cargo_args_run.eq_def]
  simp [h1, h2, h3]

/-- A run of arguments containing neither of the two flags that
`parse_cargo_args` consumes is passed through verbatim, and contributes a
target flag to `contains_target` exactly when it contains one. -/
theorem parse_append_clean (pre rest : List String)
    (h : ∀ a ∈ pre, a ≠ "--release" ∧ a ≠ "--message-format") :
    (parse_cargo_args_run (pre ++ rest)).1.filtered
      = pre ++ (parse_cargo_args_run rest).1.filtered ∧
    (parse_cargo_args_run (pre ++ rest)).1.contains_target
      = (pre.contains "--target" || (parse_cargo_args_run rest).1.contains_target) := by
  induction pre with
  | nil => simp
  | cons a pre ih =>
    obtain ⟨ha1, ha2⟩ := h a (by simp)
    obtain ⟨ihf, ihc⟩ := ih (fun x hx => h x (by simp [hx]))
    by_cases h3 : a = "--target"
    · subst h3
      simp [run_target, ihf, ihc]
    · simp [run_other a (pre ++ rest) ha1 ha2 h3, ihf, ihc, Ne.symm h3]

/-- The filtered output of `parse_cargo_args` is a subsequence of the
input: kept arguments appear unchanged and in their original order. -/
theorem parse_filtered_sublist :
    ∀ args : List String, ((parse_cargo_args_run args).1.filtered).Sublist args
  | [] => by simp [run_nil]
  | [arg] => by
    by_cases h1 : arg = "--release"
    · simp [h1, run_release, run_nil]
    · by_cases h2 : arg = "--message-format"
      · simp [h2, run_mf_nil]
      · by_cases h3 : arg = "--target"
        · simp [h3, run_target, run_nil]
        · simp [run_other arg [] h1 h2 h3, run_nil]
  | arg :: b :: rest => by
    by_cases h1 : arg = "--release"
    · simpa [h1, run_release] using (parse_filtered_sublist (b :: rest)).cons arg
    · by_cases h2 : arg = "--message-format"
      · simpa [h2, run_mf_cons] using ((parse_filtered_sublist rest).cons b).cons arg
      · by_cases h3 : arg = "--target"
        · simpa [h3, run_target] using (parse_filtered_sublist (b :: rest)).cons₂ "--target"
        · simpa [run_other arg (b :: rest) h1 h2 h3] using
            (parse_filtered_sublist (b :: rest)).cons₂ arg

/-- The release flag never survives into the filtered output: every
occurrence is either dropped by its own branch or consumed as the value of
a preceding message-format flag. -/
theorem release_not_mem_filtered :
    ∀ args : List String, "--release" ∉ (parse_cargo_args_run args).1.filtered
  | [] => by simp [run_nil]
  | [arg] => by
    by_cases h1 : arg = "--release"
    · simp [h1, run_release, run_nil]
    · by_cases h2 : arg = "--message-format"
      · simp [h2, run_mf_nil]
      · by_cases h3 : arg = "--target"
        · simp [h3, run_target, run_nil]
        · simp [run_other arg [] h1 h2 h3, run_nil, Ne.symm h1]
  | arg :: b :: rest => by
    by_cases h1 : arg = "--release"
    · simpa [h1, run_release] using release_not_mem_filtered (b :: rest)
    · by_cases h2 : arg = "--message-format"
      · simpa [h2, run_mf_cons] using release_not_mem_filtered rest
      · by_cases h3 : arg = "--target"
        · simp [h3, run_target]
          exact release_not_mem_filtered (b :: rest)
        · simp [run_other arg (b :: rest) h1 h2 h3, Ne.symm h1]
          exact release_not_mem_filtered (b :: rest)

/-- Whenever the input contains a release flag, at least one warning is
emitted: either the release warning itself, or the message-format warning
of the flag that consumed the release token as its value. -/
theorem release_mem_warns :
    ∀ args : List String, "--release" ∈ args → (parse_cargo_args_run args).2 ≠ []
  | [] => by simp
  | [arg] => by
    intro hmem
    have harg : arg = "--release" := by
      have := List.mem_singleton.mp hmem
      exact this.symm
    simp [harg, run_release]
  | arg :: b :: rest => by
    intro hmem
    by_cases h1 : arg = "--release"
    · simp [h1, run_release]
    · by_cases h2 : arg = "--message-format"
      · simp [h2, run_mf_cons]
      · have hmem2 : "--release" ∈ b :: rest := by
          rcases List.mem_cons.mp hmem with h | h
          · exact absurd h.symm h1
          · exact h
        by_cases h3 : arg = "--target"
        · simpa [h3, run_target] using release_mem_warns (b :: rest) hmem2
        · simpa [run_other arg (b :: rest) h1 h2 h3] using release_mem_warns (b :: rest) hmem2

/-- Whatever branch `cargo_command` takes, the environment-overrides
mapping attached to the produced invocation is exactly the mapping passed
in; the function never draws the child environment from anywhere else. -/
theorem cargo_command_env (cmd : CargoCommand) (args : List String)
    (env : List (String × String)) (dt : Except String String) (inv : ChildInvocation)
    (h : cargo_command cmd args env dt = .ok inv) : inv.env = env := by
  unfold cargo_command at h
  split at h
  · cases h
    rfl
  · split at h
    · cases h
    · cases h
      rfl

/-- C3: for every argument list containing the message-format flag
followed by a value, the Argument Filter removes both the flag token and
exactly the one token immediately following it, and a later token equal to
that value is kept; in particular filtering
["--message-format", "json", "foo"] keeps exactly ["foo"]. -/
theorem message_format_pair_removed :
    (∀ (pre post : List String) (v : String),
        (∀ a ∈ pre, a ≠ "--release" ∧ a ≠ "--message-format") →
        (parse_cargo_args (pre ++ "--message-format" :: v :: post)).filtered
          = pre ++ (parse_cargo_args post).filtered) ∧
    (∀ (pre : List String) (v : String),
        (∀ a ∈ pre, a ≠ "--release" ∧ a ≠ "--message-format") →
        v ≠ "--release" → v ≠ "--message-format" →
        (parse_cargo_args (pre ++ ["--message-format", v, v])).filtered = pre ++ [v]) ∧
    (parse_cargo_args ["--message-format", "json", "foo"]).filtered = ["foo"] := by
  refine ⟨?_, ?_, by decide⟩
  · intro pre post v hpre
    unfold parse_cargo_args
    rw [(parse_append_clean pre ("--message-format" :: v :: post) hpre).1, run_mf_cons]
  · intro pre v hpre hv1 hv2
    unfold parse_cargo_args
    rw [(parse_append_clean pre ["--message-format", v, v] hpre).1, run_mf_cons]
    by_cases h3 : v = "--target"
    · subst h3
      rw [run_target]
      simp [run_nil]
    · rw [run_other v [] hv1 hv2 h3]
      simp [run_nil]

/-- Witness for C3 at a concrete input. -/
theorem message_format_pair_removed_witness :
    (parse_cargo_args (["foo"] ++ "--message-format" :: "json" :: ["bar"])).filtered
      = ["foo"] ++ (parse_cargo_args ["bar"]).filtered :=
  message_format_pair_removed.1 ["foo"] ["bar"] "json" (by decide)

/-- C4: an explicit target flag and its value are kept verbatim in place
and set `contains_target`; the Build Invoker then skips automatic target
injection (even an unusable resolver result is never consulted), while
without an explicit target the resolved default triple is injected as a
target flag. -/
theorem user_target_respected :
    (∀ (pre post : List String) (v : String),
        (∀ a ∈ pre, a ≠ "--release" ∧ a ≠ "--message-format") →
        v ≠ "--release" → v ≠ "--message-format" →
        (parse_cargo_args (pre ++ "--target" :: v :: post)).filtered
          = pre ++ "--target" :: v :: (parse_cargo_args post).filtered ∧
        (parse_cargo_args (pre ++ "--target" :: v :: post)).contains_target = true) ∧
    (∀ (cmd : CargoCommand) (args : List String) (env : List (String × String))
        (dt : Except String String),
        (parse_cargo_args args).contains_target = true →
        cargo_command cmd args env dt
          = .ok ⟨"cargo", cargo_base_args cmd ++ (parse_cargo_args args).filtered, env⟩) ∧
    (∀ (cmd : CargoCommand) (args : List String) (env : List (String × String)) (t : String),
        (parse_cargo_args args).contains_target = false →
        cargo_command cmd args env (.ok t)
          = .ok ⟨"cargo", cargo_base_args cmd ++ ["--target", t]
              ++ (parse_cargo_args args).filtered, env⟩) := by
  refine ⟨?_, ?_, ?_⟩
  · intro pre post v hpre hv1 hv2
    unfold parse_cargo_args
    obtain ⟨hf, hc⟩ := parse_append_clean pre ("--target" :: v :: post) hpre
    have hv : (parse_cargo_args_run (v :: post)).1.filtered
        = v :: (parse_cargo_args_run post).1.filtered := by
      by_cases h3 : v = "--target"
      · subst h3
        rw [run_target]
      · rw [run_other v post hv1 hv2 h3]
    constructor
    · rw [hf, run_target, hv]
    · rw [hc, run_target]
      simp
  · intro cmd args env dt h
    simp [cargo_command, h]
  · intro cmd args env t h
    simp [cargo_command, h]

/-- Witness for C4 at a concrete input: with a user-supplied target flag
the invocation is built without consulting the resolver at all. -/
theorem user_target_respected_witness :
    cargo_command .build ["--target", "x64", "bar"] [] (.error "resolver unavailable")
      = .ok ⟨"cargo", cargo_base_args .build
          ++ (parse_cargo_args ["--target", "x64", "bar"]).filtered, []⟩ :=
  user_target_respected.2.1 .build ["--target", "x64", "bar"] [] (.error "resolver unavailable")
    (by decide)

/-- C8: the filtered output never contains the release flag and a warning
is observable whenever the input contained it; arguments other than the
release flag and the message-format flag with its value pass through
unchanged with order preserved. -/
theorem release_flag_always_dropped :
    (∀ args : List String, "--release" ∉ (parse_cargo_args args).filtered) ∧
    (∀ args : List String, "--release" ∈ args → (parse_cargo_args_run args).2 ≠ []) ∧
    (∀ pre post : List String,
        (∀ a ∈ pre, a ≠ "--release" ∧ a ≠ "--message-format") →
        (parse_cargo_args (pre ++ "--release" :: post)).filtered
          = pre ++ (parse_cargo_args post).filtered) ∧
    (∀ args : List String,
        (∀ a ∈ args, a ≠ "--release" ∧ a ≠ "--message-format") →
        (parse_cargo_args args).filtered = args) ∧
    (∀ args : List String, ((parse_cargo_args args).filtered).Sublist args) := by
  refine ⟨release_not_mem_filtered, release_mem_warns, ?_, ?_, parse_filtered_sublist⟩
  · intro pre post hpre
    unfold parse_cargo_args
    rw [(parse_append_clean pre ("--release" :: post) hpre).1, run_release]
  · intro args h
    have h2 := (parse_append_clean args [] h).1
    simpa [run_nil] using h2

/-- Witness for C8 at a concrete input. -/
theorem release_flag_always_dropped_witness :
    (parse_cargo_args_run ["foo", "--release", "--bar"]).2 ≠ [] :=
  release_flag_always_dropped.2.1 ["foo", "--release", "--bar"] (by decide)

/-- C5: `get_default_target` scans the query output line by line for a
line beginning with the fixed marker and returns the remainder of that
line; it fails exactly when no such line is found or the query process
could not be run. -/
theorem default_target_resolution :
    (∀ e : String, get_default_target (.error e) = .error e) ∧
    (∀ s l : String,
        (rust_lines s).find? (fun l => str_begins_with l "host: ") = some l →
        get_default_target (.ok s) = .ok (str_drop l 6)) ∧
    (∀ s : String,
        (∀ l ∈ rust_lines s, str_begins_with l "host: " = false) →
        get_default_target (.ok s) = .error "Failed to parse target from rustc output.") := by
  refine ⟨fun e => rfl, ?_, ?_⟩
  · intro s l h
    simp [get_default_target, h]
  · intro s h
    have hnone : (rust_lines s).find? (fun l => str_begins_with l "host: ") = none := by
      rw [List.find?_eq_none]
      intro x hx
      simp [h x hx]
    simp [get_default_target, hnone]

/-- Witness for C5 at a concrete rustc-style output. -/
theorem default_target_resolution_witness :
    get_default_target (.ok "rustc 1.62.0\nhost: x86_64-unknown-linux-gnu\nrelease: 1.62.0\n")
      = .ok (str_drop "host: x86_64-unknown-linux-gnu" 6) :=
  default_target_resolution.2.1 "rustc 1.62.0\nhost: x86_64-unknown-linux-gnu\nrelease: 1.62.0\n"
    "host: x86_64-unknown-linux-gnu" (by rfl)

/-- C6: on a non-success exit status the Build Invoker fails with an error
whose message embeds the exit status display, the raw standard error, and
the rendered replay of the captured structured stdout, in which text lines
and diagnostics contribute their textual payload (diagnostics prefer the
pre-rendered form, falling back to the plain message) and every other
record kind contributes nothing; on success the captured output is
returned unchanged. -/
theorem build_error_message_replay :
    (∀ out : Output, out.success = true → cargo_command_with_flags_check out = .ok out) ∧
    (∀ out : Output, out.success = false →
        cargo_command_with_flags_check out
          = .error ("Cargo error (" ++ out.status_display ++ ")\n" ++ out.stderr ++ "\n"
              ++ cargo_json_output_to_string out.stdout_msgs)) ∧
    (∀ s line : String, write_metadata_message s (.textLine line) = s ++ line) ∧
    (∀ s r m : String, write_metadata_message s (.compilerMessage (some r) m) = s ++ r) ∧
    (∀ s m : String, write_metadata_message s (.compilerMessage none m) = s ++ m) ∧
    (∀ (s n : String) (e : Option String) (k : List String),
        write_metadata_message s (.compilerArtifact n e k) = s) ∧
    (∀ (s : String) (b : Bool), write_metadata_message s (.buildFinished b) = s) ∧
    (∀ s : String, write_metadata_message s .other = s) := by
  refine ⟨?_, ?_, fun s line => rfl, fun s r m => rfl, fun s m => rfl,
    fun s n e k => rfl, fun s b => rfl, fun s => rfl⟩
  · intro out h
    simp [cargo_command_with_flags_check, h]
  · intro out h
    simp [cargo_command_with_flags_check, h]

/-- Witness for C6 at a concrete failed build output. -/
theorem build_error_message_replay_witness :
    cargo_command_with_flags_check
        ⟨false, "exit status: 101",
          [.textLine "L", .compilerMessage (some "R") "m", .buildFinished false], "boom"⟩
      = .error ("Cargo error (" ++ "exit status: 101" ++ ")\n" ++ "boom" ++ "\n"
          ++ cargo_json_output_to_string
              [.textLine "L", .compilerMessage (some "R") "m", .buildFinished false]) :=
  build_error_message_replay.2.1
    ⟨false, "exit status: 101",
      [.textLine "L", .compilerMessage (some "R") "m", .buildFinished false], "boom"⟩ rfl

/-- C9: the extra-flags environment variable is composed by reading the
current value (empty when unset) and appending the extra flags after a
whitespace separator, and the result travels into the child invocation
only through the explicit environment-overrides mapping. -/
theorem rustflags_env_composition :
    (∀ (g : String → Option String) (cmd : CargoCommand) (flags : String)
        (args : List String) (dt : Except String String) (inv : ChildInvocation),
        cargo_command_with_flags_invocation g cmd flags args dt = .ok inv →
        inv.env = [("RUSTFLAGS", (g "RUSTFLAGS").getD "" ++ " " ++ flags)]) ∧
    (∀ (cmd : CargoCommand) (flags : String) (args : List String)
        (dt : Except String String) (inv : ChildInvocation),
        cargo_command_with_flags_invocation (fun _ => none) cmd flags args dt = .ok inv →
        inv.env = [("RUSTFLAGS", " " ++ flags)]) ∧
    (∀ (cmd : CargoCommand) (args : List String) (env : List (String × String))
        (dt : Except String String) (inv : ChildInvocation),
        cargo_command cmd args env dt = .ok inv → inv.env = env) := by
  refine ⟨?_, ?_, fun cmd args env dt inv h => cargo_command_env cmd args env dt inv h⟩
  · intro g cmd flags args dt inv h
    exact cargo_command_env cmd args _ dt inv h
  · intro cmd flags args dt inv h
    have h2 := cargo_command_env cmd args _ dt inv h
    simpa using h2

/-- Witness for C9 at a concrete invocation with a pre-existing RUSTFLAGS
value. -/
theorem rustflags_env_composition_witness :
    (⟨"cargo",
        ["build", "--release", "--message-format", "json-diagnostic-rendered-ansi",
          "--target", "T"],
        [("RUSTFLAGS", "-Cold -Cnew")]⟩ : ChildInvocation).env
      = [("RUSTFLAGS", ((fun _ => some "-Cold") "RUSTFLAGS").getD "" ++ " " ++ "-Cnew")] :=
  rustflags_env_composition.1 (fun _ => some "-Cold") .build "-Cnew" [] (.ok "T") _ (by rfl)

/-- C7: for an artifact executable /out/myapp under profile directory
/prof, the instrumented output path is the sibling
/out/myapp-bolt-instrumented and the profile path prefix is
/prof/myapp/profile. -/
theorem instrumented_paths_for_myapp :
    instrument_binary (.ok ()) (fun _ => ⟨true, 0, some ""⟩) "/out/myapp" "/prof"
      = .ok "/out/myapp-bolt-instrumented" ∧
    (path_file_stem "/out/myapp").map (instrument_profile_path "/prof")
      = some "/prof/myapp/profile" :=
  ⟨rfl, rfl⟩

/-- In the path model, a path with no parent also has no extractable file
name, hence no stem: both degenerate exactly when the component list is
empty. -/
theorem parent_none_stem_none (p : String) (h : path_parent p = none) :
    path_file_stem p = none := by
  unfold path_file_stem path_file_name
  cases hc : path_components p with
  | nil => simp
  | cons a l =>
    exact absurd h (by
      unfold path_parent
      rw [hc]
      split
      · simp_all
      · split
        · simp
        · split <;> simp)

/-- C10: for any artifact executable path with no extractable file-name
stem or no parent directory, such as the bare root path,
`instrument_binary` aborts through an `expect` call instead of returning
through its error channel. -/
theorem instrument_binary_panics_on_degenerate_path :
    (∀ (cd : Except String Unit) (bolt : List String → ProcessResult) (p pd : String),
        path_file_stem p = none ∨ path_parent p = none →
        instrument_binary cd bolt p pd = .panicked "Cannot extract executable basename" ∨
        instrument_binary cd bolt p pd = .panicked "Cannot get parent of compiled binary") ∧
    path_file_stem "/" = none := by
  refine ⟨?_, rfl⟩
  intro cd bolt p pd h
  have hstem : path_file_stem p = none := by
    rcases h with h | h
    · exact h
    · exact parent_none_stem_none p h
  left
  unfold instrument_binary
  rw [hstem]

/-- Witness for C10 at the bare root path. -/
theorem instrument_binary_panics_on_degenerate_path_witness :
    instrument_binary (.ok ()) (fun _ => ⟨true, 0, some ""⟩) "/" "/prof"
      = .panicked "Cannot extract executable basename" ∨
    instrument_binary (.ok ()) (fun _ => ⟨true, 0, some ""⟩) "/" "/prof"
      = .panicked "Cannot get parent of compiled binary" :=
  instrument_binary_panics_on_degenerate_path.1 (.ok ()) (fun _ => ⟨true, 0, some ""⟩)
    "/" "/prof" (Or.inl rfl)

/-- C1: `run_command` returns the stdout of a spawned child without ever
consulting its exit status, so a BOLT invocation that exits with status 1
is reported as success by `instrument_binary`, and the pipeline keeps
instrumenting the remaining artifacts and finishes successfully instead of
aborting with a fatal error. -/
theorem bolt_nonzero_exit_not_fatal :
    run_command ⟨true, 1, some ""⟩ = .ok "" ∧
    instrument_binary (.ok ()) (fun _ => ⟨true, 1, some ""⟩) "/out/myapp" "/prof"
      = .ok "/out/myapp-bolt-instrumented" ∧
    instrument_artifacts (.ok ()) (fun _ => ⟨true, 1, some ""⟩) "/prof"
      [.compilerArtifact "a" (some "/out/a") ["bin"],
        .compilerArtifact "b" (some "/out/b") ["bin"], .buildFinished true]
      = .ok ["/out/a-bolt-instrumented", "/out/b-bolt-instrumented"] :=
  ⟨rfl, rfl, rfl⟩

/-- C2 counterexample: preparing a path that does not exist neither
creates it nor clears it — the guarded preparation step is a no-op on the
whole filesystem, and the underlying `clear_directory` fails outright on a
missing path instead of creating it. -/
theorem prepare_missing_path_not_created :
    bolt_prepare [] "/prof" = .ok [] ∧
    fs_exists [] "/prof" = false ∧
    clear_directory [] "/prof" = .error "No such file or directory" :=
  ⟨rfl, rfl, rfl⟩

/-- Clearing an existing directory produces the directory with every path
strictly under it removed and the directory itself present and empty. -/
theorem clear_directory_empties (fs : List String) (p : String)
    (h : fs_exists fs p = true) :
    clear_directory fs p = .ok (p :: fs.filter (fun q => !(is_under p q))) ∧
    dir_is_empty (p :: fs.filter (fun q => !(is_under p q))) p = true := by
  have hself : is_under p p = true := by
    simp [is_under]
  have hmem : p ∉ fs.filter (fun q => !(is_under p q)) := by
    intro hm
    have h2 := (List.mem_filter.mp hm).2
    rw [hself] at h2
    simp at h2
  have hcont : (fs.filter (fun q => !(is_under p q))).contains p = false := by
    simpa using hmem
  constructor
  · have hrem : remove_dir_all fs p = .ok (fs.filter (fun q => !(is_under p q))) := by
      unfold remove_dir_all
      unfold fs_exists at h
      rw [h]
      simp
    have hcreate : create_dir_all_fs (fs.filter (fun q => !(is_under p q))) p
        = p :: fs.filter (fun q => !(is_under p q)) := by
      unfold create_dir_all_fs
      rw [hcont]
      simp
    unfold clear_directory
    rw [hrem]
    simp [hcreate]
  · unfold dir_is_empty
    refine (Bool.and_eq_true _ _).mpr ⟨?_, ?_⟩
    · simp [List.contains_cons]
    · rw [List.all_eq_true]
      intro q hq
      rcases List.mem_cons.mp hq with hq | hq
      · subst hq
        simp
      · have h2 := (List.mem_filter.mp hq).2
        simp only [h2]
        simp

/-- C2 (amended): preparation clears the profile directory only when the
path already exists — removing it recursively and recreating it empty —
and repeating the preparation after further content is written under it
leaves it empty again; a path that does not exist is left untouched. -/
theorem prepare_clears_existing_directory :
    (∀ (fs : List String) (p : String), fs_exists fs p = true →
        ∃ fs1, bolt_prepare fs p = .ok fs1 ∧ dir_is_empty fs1 p = true) ∧
    (∀ (fs : List String) (p : String), fs_exists fs p = false →
        bolt_prepare fs p = .ok fs) ∧
    (∀ (fs extra : List String) (p : String), fs_exists fs p = true →
        ∃ fs1 fs2, bolt_prepare fs p = .ok fs1 ∧ dir_is_empty fs1 p = true ∧
          bolt_prepare (extra ++ fs1) p = .ok fs2 ∧ dir_is_empty fs2 p = true) := by
  have main : ∀ (fs : List String) (p : String), fs_exists fs p = true →
      ∃ fs1, bolt_prepare fs p = .ok fs1 ∧ dir_is_empty fs1 p = true := by
    intro fs p h
    obtain ⟨hclear, hempty⟩ := clear_directory_empties fs p h
    refine ⟨p :: fs.filter (fun q => !(is_under p q)), ?_, hempty⟩
    unfold bolt_prepare
    rw [h]
    simpa using hclear
  refine ⟨main, ?_, ?_⟩
  · intro fs p h
    unfold bolt_prepare
    rw [h]
    simp
  · intro fs extra p h
    obtain ⟨fs1, hprep1, hempty1⟩ := main fs p h
    have hmem1 : p ∈ fs1 := by
      have h2 := (Bool.and_eq_true _ _).mp hempty1
      simpa using h2.1
    have hex2 : fs_exists (extra ++ fs1) p = true := by
      unfold fs_exists
      simp [List.mem_append, hmem1]
    obtain ⟨fs2, hprep2, hempty2⟩ := main (extra ++ fs1) p hex2
    exact ⟨fs1, fs2, hprep1, hempty1, hprep2, hempty2⟩

/-- Witness for the amended C2 at a concrete filesystem with stale profile
content and content written between the two preparations. -/
theorem prepare_clears_existing_directory_witness :
    ∃ fs1 fs2, bolt_prepare ["/prof", "/prof/old/p1", "/x"] "/prof" = .ok fs1 ∧
      dir_is_empty fs1 "/prof" = true ∧
      bolt_prepare (["/prof/a/p2"] ++ fs1) "/prof" = .ok fs2 ∧
      dir_is_empty fs2 "/prof" = true :=
  prepare_clears_existing_directory.2.2 ["/prof", "/prof/old/p1", "/x"] ["/prof/a/p2"]
    "/prof" (by rfl)

end CargoPgo
